import Mathlib

/-
Verification development for the KiwiCore data-flow graph runtime
(KiwiBase: Attribute, Box, Link, Page/Patcher).

The definitions below are shallow embeddings of the C++ sources:
  * Element / ElemVector         from Element.h usage sites (tagged union of
                                 integer, floating point, interned symbol, ...)
  * Attribute, typed setters     from KiwiBase/Attribute.cpp
  * AttributeFactory (manager)   from KiwiBase/Attribute.cpp
  * Box::send reentrancy guard   from KiwiBase/Box.cpp
  * Link::connect / disconnect   from KiwiBase/Link.cpp
  * Page (id-based free list)    from KiwiBase/Patcher.cpp
  * Page (box-id counter)        from KiwiBase/Page.cpp

C++ doubles are modelled as rationals, machine integers as Int/Nat
(no arithmetic in the modelled paths can overflow), interned tags as
strings, and the JSON dictionary as a partial map from strings to
element vectors.
-/

namespace Kiwi

/-- An element is the variant type exchanged between boxes: an integer
(`long`), a floating point number (`double`), an interned symbol (`tag`)
or an opaque object reference (modelled by an identifier). -/
inductive Element where
  | long (n : Int)
  | double (d : ℚ)
  | tag (t : String)
  | object (id : Nat)
  deriving DecidableEq, Repr

/-- A message: an ordered vector of elements (`ElemVector` in the source). -/
abbrev ElemVector := List Element

namespace Element

/-- Type predicate `Element::isLong`. -/
def isLong : Element → Bool
  | long _ => true
  | _ => false

/-- Type predicate `Element::isDouble`. -/
def isDouble : Element → Bool
  | double _ => true
  | _ => false

/-- Type predicate `Element::isNumber` (long or double). -/
def isNumber : Element → Bool
  | long _ => true
  | double _ => true
  | _ => false

/-- Type predicate `Element::isTag`. -/
def isTag : Element → Bool
  | tag _ => true
  | _ => false

/-- Silent coercion to a double: numbers convert, everything else yields
the zero default (the permissive contract of §4.1). -/
def toDouble : Element → ℚ
  | long n => (n : ℚ)
  | double d => d
  | _ => 0

/-- Silent coercion to a long; a double truncates toward zero as the C++
cast does, everything non numeric yields the zero default. -/
def toLong : Element → Int
  | long n => n
  | double d => d.num.tdiv (d.den : Int)
  | _ => 0

/-- Silent coercion to a tag name (empty on mismatch). -/
def toTag : Element → String
  | tag t => t
  | _ => ""

end Element

/-- The dictionary store: a key to element-vector map (Dico.h is a
`map<sTag, ElemVector>`; we only need `set`, `get`, `has`, `clear`). -/
def Dico := String → Option ElemVector

namespace Dico

/-- The empty dictionary. -/
def empty : Dico := fun _ => none

/-- `Dico::set`. -/
def set (key : String) (v : ElemVector) (d : Dico) : Dico :=
  fun k => if k = key then some v else d k

/-- `Dico::get` filling an element vector: an absent key leaves the
vector empty. -/
def get (key : String) (d : Dico) : ElemVector :=
  (d key).getD []

/-- `Dico::has`. -/
def has (key : String) (d : Dico) : Bool :=
  (d key).isSome

end Dico

/-! ### Attribute (KiwiBase/Attribute.cpp, the `Attribute` revision) -/

/-- The behavior bitset of an attribute.  The bits are those of the
`Behavior` enum (Invisible, Disabled, NotFreezable, NotSaveable,
NotNotifyChanges) together with the `Opaque` bit used by
`Attribute::setOpaque` and `Attribute::isOpaque`; a bitset over distinct
single-bit masks is represented by one Boolean per bit. -/
structure Behavior where
  invisible : Bool
  opq : Bool
  disabled : Bool
  notFreezable : Bool
  notSaveable : Bool
  notNotifyChanges : Bool
  deriving DecidableEq, Repr

/-- The all-clear behavior (value `0`). -/
def Behavior.none : Behavior :=
  ⟨false, false, false, false, false, false⟩

/-- The typed stored value of a concrete attribute subclass
(AttributeLong, AttributeDouble, AttributeBool, AttributeTag,
AttributeColor, AttributeRect); the constructor selects the subclass. -/
inductive AttrValue where
  | long (v : Int)
  | double (v : ℚ)
  | bool (v : Bool)
  | tag (v : String)
  | color (r g b a : ℚ)
  | rect (x y w h : ℚ)
  deriving DecidableEq, Repr

/-- An attribute: name, default value, label/category/style metadata,
behavior bitset, frozen flag with its snapshot, and the typed current
value. -/
structure Attribute where
  name : String
  defaultValue : ElemVector
  label : String
  category : String
  behavior : Behavior
  frozen : Bool
  frozenValue : ElemVector
  value : AttrValue
  deriving DecidableEq, Repr

/-- Clip a value into an interval (the `clip` helper used by
`AttributeColor::set`). -/
def clip (v lo hi : ℚ) : ℚ := min (max v lo) hi

namespace Attribute

/-- The getter `get(ElemVector&)` of each concrete attribute subclass:
the stored value rendered as an element vector. -/
def get (a : Attribute) : ElemVector :=
  match a.value with
  | .long v => [.long v]
  | .double v => [.double v]
  | .bool v => [.long (if v then 1 else 0)]
  | .tag v => [.tag v]
  | .color r g b al => [.double r, .double g, .double b, .double al]
  | .rect x y w h => [.double x, .double y, .double w, .double h]

/-- The component rule of `AttributeColor::set`: a numeric element in
range is clipped into [0,1], a missing or non numeric component resets
to black with full alpha (0 for the first three, 1 for alpha). -/
def colorComponent (elements : ElemVector) (i : Nat) : ℚ :=
  match elements.get? i with
  | some e => if e.isNumber then clip e.toDouble 0 1 else if i < 3 then 0 else 1
  | none => if i < 3 then 0 else 1

/-- The component rule of `AttributeRect::set`: a numeric element in
range is used, a missing or non numeric component resets to 0. -/
def rectComponent (elements : ElemVector) (i : Nat) : ℚ :=
  match elements.get? i with
  | some e => if e.isNumber then e.toDouble else 0
  | none => 0

/-- The virtual setter `set(ElemVector const&)`, dispatched on the
concrete subclass:
  * `AttributeLong::set`   stores `elements[0]` when it is long or double;
  * `AttributeDouble::set` stores `elements[0]` when it is a number;
  * `AttributeBool::set`   stores `elements[0] != 0` when it is a number;
  * `AttributeTag::set`    stores `elements[0]` when it is a tag;
  * `AttributeColor::set`  always rewrites all four components;
  * `AttributeRect::set`   always rewrites all four components. -/
def set (elements : ElemVector) (a : Attribute) : Attribute :=
  match a.value with
  | .long _ =>
      match elements.head? with
      | some e => if e.isLong || e.isDouble then { a with value := .long e.toLong } else a
      | none => a
  | .double _ =>
      match elements.head? with
      | some e => if e.isNumber then { a with value := .double e.toDouble } else a
      | none => a
  | .bool _ =>
      match elements.head? with
      | some e => if e.isNumber then { a with value := .bool (e.toLong != 0) } else a
      | none => a
  | .tag _ =>
      match elements.head? with
      | some e => if e.isTag then { a with value := .tag e.toTag } else a
      | none => a
  | .color _ _ _ _ =>
      { a with value := .color (colorComponent elements 0) (colorComponent elements 1)
                               (colorComponent elements 2) (colorComponent elements 3) }
  | .rect _ _ _ _ =>
      { a with value := .rect (rectComponent elements 0) (rectComponent elements 1)
                              (rectComponent elements 2) (rectComponent elements 3) }

/-- `Attribute::isOpaque`. -/
def isOpaque (a : Attribute) : Bool := a.behavior.opq

/-- `Attribute::isSaveable`: true when the NotSaveable bit is clear. -/
def isSaveable (a : Attribute) : Bool := !a.behavior.notSaveable

/-- `Attribute::shouldNotifyChanges`: true when the NotNotifyChanges bit
is clear. -/
def shouldNotifyChanges (a : Attribute) : Bool := !a.behavior.notNotifyChanges

/-- `Attribute::setInvisible`: `if (b) m_behavior &= ~Invisible; else
m_behavior |= Invisible;`. -/
def setInvisible (b : Bool) (a : Attribute) : Attribute :=
  if b then { a with behavior := { a.behavior with invisible := false } }
  else { a with behavior := { a.behavior with invisible := true } }

/-- `Attribute::setOpaque`: `if (b) m_behavior &= ~Opaque; else
m_behavior |= Opaque;`. -/
def setOpaque (b : Bool) (a : Attribute) : Attribute :=
  if b then { a with behavior := { a.behavior with opq := false } }
  else { a with behavior := { a.behavior with opq := true } }

/-- `Attribute::setDisabled`: `if (!b) m_behavior &= ~Disabled; else
m_behavior |= Disabled;`. -/
def setDisabled (b : Bool) (a : Attribute) : Attribute :=
  if !b then { a with behavior := { a.behavior with disabled := false } }
  else { a with behavior := { a.behavior with disabled := true } }

/-- `Attribute::setSaveable`: `if (!b) m_behavior &= ~NotSaveable; else
m_behavior |= NotSaveable;`. -/
def setSaveable (b : Bool) (a : Attribute) : Attribute :=
  if !b then { a with behavior := { a.behavior with notSaveable := false } }
  else { a with behavior := { a.behavior with notSaveable := true } }

/-- `Attribute::setNotifyChanges`: `if (!b) m_behavior &= ~NotNotifyChanges;
else m_behavior |= NotNotifyChanges;`. -/
def setNotifyChanges (b : Bool) (a : Attribute) : Attribute :=
  if !b then { a with behavior := { a.behavior with notNotifyChanges := false } }
  else { a with behavior := { a.behavior with notNotifyChanges := true } }

/-- `Attribute::freeze`: store the flag; when frozen capture `get()` into
the snapshot, otherwise clear the snapshot.  No behavior bit is
consulted. -/
def freeze (frozen : Bool) (a : Attribute) : Attribute :=
  let a1 := { a with frozen := frozen }
  if a1.frozen then { a1 with frozenValue := a1.get }
  else { a1 with frozenValue := [] }

/-- `Attribute::write`: unless the NotSaveable bit is set and the
attribute is not frozen, write the live value (or, when frozen, the
frozen snapshot) under the attribute's name. -/
def write (a : Attribute) (dico : Dico) : Dico :=
  if !a.behavior.notSaveable || a.frozen then
    dico.set a.name (if !a.frozen then a.get else a.frozenValue)
  else
    dico

/-- `Attribute::read`: call `set` with whatever the dico holds under the
attribute's name. -/
def read (dico : Dico) (a : Attribute) : Attribute :=
  a.set (dico.get a.name)

end Attribute

/-! ### Attribute manager (`AttributeFactory` in KiwiBase/Attribute.cpp) -/

/-- The per-node attribute registry: a name-keyed map of attributes
(represented as a list with pairwise distinct names) plus the list of
change notifications raised so far (`notify(attr)` records the
attribute's name). -/
structure AttributeFactory where
  attributes : List Attribute
  notified : List String

namespace AttributeFactory

/-- Lookup in the name-keyed attribute map (`m_attributes.find`). -/
def findAttr (t : String) (m : AttributeFactory) : Option Attribute :=
  m.attributes.find? (fun a => a.name = t)

/-- Replace the stored attribute carrying the given name (the C++ setter
mutates the shared attribute object held by the map). -/
def updateAttr (t : String) (a1 : Attribute) (m : AttributeFactory) : AttributeFactory :=
  { m with attributes := m.attributes.map (fun a => if a.name = t then a1 else a) }

/-- Raise a change notification for an attribute. -/
def notify (t : String) (m : AttributeFactory) : AttributeFactory :=
  { m with notified := m.notified ++ [t] }

/-- `AttributeFactory::receive`: when the message starts with a tag
naming a registered attribute and the attribute is not opaque, strip the
tag, forward the rest to the attribute's setter, and raise a change
notification when the attribute should notify changes; in every other
case do nothing.  The function returns no success indicator (it is
`void` in the source). -/
def receive (elements : ElemVector) (m : AttributeFactory) : AttributeFactory :=
  match elements with
  | e :: rest =>
      if e.isTag then
        match m.findAttr e.toTag with
        | some attr =>
            if !attr.isOpaque then
              let set := attr.set rest
              let m1 := m.updateAttr e.toTag set
              if set.shouldNotifyChanges then m1.notify e.toTag else m1
            else m
        | none => m
      else m
  | [] => m

/-- `AttributeFactory::write`: write every saveable attribute into the
dico. -/
def write (m : AttributeFactory) (dico : Dico) : Dico :=
  m.attributes.foldl (fun d a => if a.isSaveable then a.write d else d) dico

/-- `AttributeFactory::read`: let every attribute read itself from the
dico. -/
def read (dico : Dico) (m : AttributeFactory) : AttributeFactory :=
  { m with attributes := m.attributes.map (Attribute.read dico) }

end AttributeFactory

/-! ### Box and `Box::send` (KiwiBase/Box.cpp) -/

/-- One registered target of an outlet (`m_conns` entry): the receiving
box and the index of its inlet. -/
structure Conn where
  box : Nat
  idx : Nat
  deriving DecidableEq, Repr

/-- An observable event of a send: a call of `receiver->receive(inlet,
elements)`, or a `Console::error(receiver, "Stack overflow")`
diagnostic. -/
inductive Ev where
  | recv (box inlet : Nat) (msg : ElemVector)
  | overflow (box : Nat)
  deriving DecidableEq, Repr

/-- The per-box state: the reentrancy counter `m_stack_count`, the
per-outlet target lists, the attribute manager, and the box's virtual
`receive` behavior.  A concrete box kind's `receive(inlet, msg)` is
modelled by `reaction`: the list of `send(outlet, msg)` calls it
performs, and the Boolean it returns (`false` meaning unhandled). -/
structure BoxData where
  stackCount : Nat
  outlets : List (List Conn)
  manager : AttributeFactory
  reaction : Nat → ElemVector → List (Nat × ElemVector) × Bool

/-- The state of all boxes (identified by number), plus the event
trace. -/
structure System where
  boxes : Nat → BoxData
  trace : List Ev

namespace System

/-- Update one box in place. -/
def updateBox (st : System) (i : Nat) (f : BoxData → BoxData) : System :=
  { st with boxes := fun j => if j = i then f (st.boxes j) else st.boxes j }

/-- The reentrancy counter of a box. -/
def count (st : System) (i : Nat) : Nat :=
  (st.boxes i).stackCount

/-- Record a `Console::error(receiver, "Stack overflow")` diagnostic. -/
def logOverflow (st : System) (i : Nat) : System :=
  { st with trace := st.trace ++ [Ev.overflow i] }

end System

namespace Box

/-- One delivery into a receiver once the reentrancy guard admitted it:
the `receiver->receive(inlet, elements)` call (recorded in the trace)
performs the receiver's sends through `nested`, and when it returns
false the message falls back to the receiver's attribute manager
(`receiver->Attribute::Manager::receive(elements)`). -/
def deliverBody (nested : System → Nat → Nat → ElemVector → System)
    (st : System) (c : Conn) (msg : ElemVector) : System :=
  let r := (st.boxes c.box).reaction c.idx msg
  let st0 : System := { st with trace := st.trace ++ [Ev.recv c.box c.idx msg] }
  let st1 := r.1.foldl (fun s a => nested s c.box a.1 a.2) st0
  if r.2 then st1
  else st1.updateBox c.box (fun b => { b with manager := b.manager.receive msg })

/-- One iteration of the loop in `Box::send`: pre-increment the
receiver's reentrancy counter, branch on the incremented value
(`< 256` deliver, `== 256` log and deliver, otherwise log only), and
decrement the counter afterwards. -/
def deliverOne (nested : System → Nat → Nat → ElemVector → System)
    (st : System) (msg : ElemVector) (c : Conn) : System :=
  let st1 := st.updateBox c.box (fun b => { b with stackCount := b.stackCount + 1 })
  let cnt := st1.count c.box
  let st2 :=
    if cnt < 256 then deliverBody nested st1 c msg
    else if cnt = 256 then deliverBody nested (st1.logOverflow c.box) c msg
    else st1.logOverflow c.box
  st2.updateBox c.box (fun b => { b with stackCount := b.stackCount - 1 })

/-- `Box::send`: when the outlet index is in range, iterate over the
outlet's registered targets delivering the message to each, under the
reentrancy guard.  Nested sends performed by receivers recurse with one
unit of fuel less; with fuel 0 a send does nothing (the balance theorems
below hold for every fuel). -/
def send : Nat → System → Nat → Nat → ElemVector → System
  | 0, st, _, _, _ => st
  | fuel + 1, st, sender, index, msg =>
      let b := st.boxes sender
      if index < b.outlets.length then
        (b.outlets.getD index []).foldl (fun s c => deliverOne (send fuel) s msg c) st
      else st

end Box

/-! ### Link (KiwiBase/Link.cpp)

The endpoint bookkeeping of a box is kept in per-outlet target lists and
per-inlet source lists.  `Link::connect` calls the box member functions
`connectOutlet`, `connectInlet` and `disconnectOutlet`; those members
are declared and used in this revision of the sources but their bodies
are not part of the tree, so they are modelled from the spec below. -/

/-- A box as seen by the link protocol: its per-outlet target lists
(each entry a `(receiver box, inlet index)` pair) and its per-inlet
source lists (each entry a `(sender box, outlet index)` pair).  The
number of outlets and inlets is the length of the respective list. -/
structure LBox where
  outletConns : List (List (Nat × Nat))
  inletConns : List (List (Nat × Nat))
  deriving DecidableEq, Repr

/-- The boxes reachable through the link's weak references; `none`
models an expired box. -/
def Wiring := Nat → Option LBox

namespace Wiring

/-- The target list of one outlet of one box. -/
def outletList (w : Wiring) (id i : Nat) : List (Nat × Nat) :=
  match w id with
  | some b => b.outletConns.getD i []
  | none => []

/-- The source list of one inlet of one box. -/
def inletList (w : Wiring) (id i : Nat) : List (Nat × Nat) :=
  match w id with
  | some b => b.inletConns.getD i []
  | none => []

/-- Replace the target list of one outlet of one box. -/
def setOutletList (w : Wiring) (id i : Nat) (l : List (Nat × Nat)) : Wiring :=
  fun j =>
    if j = id then
      match w j with
      | some b => some { b with outletConns := b.outletConns.set i l }
      | none => none
    else w j

/-- Replace the source list of one inlet of one box. -/
def setInletList (w : Wiring) (id i : Nat) (l : List (Nat × Nat)) : Wiring :=
  fun j =>
    if j = id then
      match w j with
      | some b => some { b with inletConns := b.inletConns.set i l }
      | none => none
    else w j

/-- Modelled from the spec: `Box::connectOutlet` (declared in this
revision, body not in the tree) — pure bookkeeping registration of the
`(to, inlet)` target on the given outlet of box `from`; it fails when
the box is expired, the outlet index is out of range, or the pair is
already registered (the no-parallel-duplicate-edges invariant of
`isConnectable`), and appends the pair to the outlet's target list
otherwise. -/
def connectOutlet (w : Wiring) (src outlet dst inlet : Nat) : Bool × Wiring :=
  match w src with
  | some b =>
      if outlet < b.outletConns.length then
        if (dst, inlet) ∈ b.outletConns.getD outlet [] then (false, w)
        else (true, w.setOutletList src outlet
          (b.outletConns.getD outlet [] ++ [(dst, inlet)]))
      else (false, w)
  | none => (false, w)

/-- Modelled from the spec: `Box::connectInlet` — the mirror bookkeeping
registration of the `(from, outlet)` source on the given inlet of box
`to`. -/
def connectInlet (w : Wiring) (dst inlet src outlet : Nat) : Bool × Wiring :=
  match w dst with
  | some b =>
      if inlet < b.inletConns.length then
        if (src, outlet) ∈ b.inletConns.getD inlet [] then (false, w)
        else (true, w.setInletList dst inlet
          (b.inletConns.getD inlet [] ++ [(src, outlet)]))
      else (false, w)
  | none => (false, w)

/-- Modelled from the spec: `Box::disconnectOutlet` — inverse
bookkeeping removal of the `(to, inlet)` target from the given outlet of
box `from`; returns whether something was removed. -/
def disconnectOutlet (w : Wiring) (src outlet dst inlet : Nat) : Bool × Wiring :=
  match w src with
  | some b =>
      if outlet < b.outletConns.length then
        if (dst, inlet) ∈ b.outletConns.getD outlet [] then
          (true, w.setOutletList src outlet
            ((b.outletConns.getD outlet []).erase (dst, inlet)))
        else (false, w)
      else (false, w)
  | none => (false, w)

end Wiring

/-- A link: a source box with an outlet index and a destination box with
an inlet index (weak references, resolved through the wiring). -/
structure Link where
  boxFrom : Nat
  boxTo : Nat
  indexOutlet : Nat
  indexInlet : Nat
  deriving DecidableEq, Repr

namespace Link

/-- `Link::connect` (Link.cpp): lock both endpoints; register at the
source outlet, then at the destination inlet; when the second
registration fails, remove the first one again before returning
failure. -/
def connect (l : Link) (w : Wiring) : Bool × Wiring :=
  match w l.boxFrom, w l.boxTo with
  | some _, some _ =>
      let r1 := w.connectOutlet l.boxFrom l.indexOutlet l.boxTo l.indexInlet
      if r1.1 then
        let r2 := r1.2.connectInlet l.boxTo l.indexInlet l.boxFrom l.indexOutlet
        if r2.1 then (true, r2.2)
        else (false, (r2.2.disconnectOutlet l.boxFrom l.indexOutlet l.boxTo l.indexInlet).2)
      else (false, r1.2)
  | _, _ => (false, w)

/-- `Link::disconnect` (Link.cpp): the body is `return false;` — no
bookkeeping is touched. -/
def disconnect (_l : Link) (w : Wiring) : Bool × Wiring :=
  (false, w)

end Link

/-! ### The id-based container (`Page` in KiwiBase/Patcher.cpp)

This revision manages objects with a free-id list: `Page::remove`
appends the removed object's identity to `m_free_ids`, and `Page::add`
takes `m_free_ids[0]` (erasing it) when the list is nonempty, else
`m_objects.size() + 1`.  Objects are represented by their identities and
links by their endpoint identities — all this revision's `remove` and
id allocation consult. -/

/-- The state of the Patcher.cpp `Page`: the ordered object collection
(each object by its identity), the link collection (each link by its
endpoint object identities), and the `m_free_ids` vector. -/
structure PatcherPage where
  objects : List Nat
  links : List (Nat × Nat)
  freeIds : List Nat
  deriving DecidableEq, Repr

namespace PatcherPage

/-- The empty page. -/
def empty : PatcherPage := ⟨[], [], []⟩

/-- `Page::remove(sObject)`: when the object is present, erase every
link touching it, erase the object, and append its identity to the
free-id list; otherwise do nothing. -/
def remove (id : Nat) (p : PatcherPage) : PatcherPage :=
  if id ∈ p.objects then
    { objects := p.objects.erase id
      links := p.links.filter (fun lk => lk.1 != id && lk.2 != id)
      freeIds := p.freeIds ++ [id] }
  else p

/-- The identity allocation performed per object dico inside
`Page::add`: `m_free_ids.empty() ? m_objects.size() + 1 : m_free_ids[0]`,
erasing the front of `m_free_ids` when it was used. -/
def takeId (p : PatcherPage) : Nat × PatcherPage :=
  if p.freeIds.isEmpty then (p.objects.length + 1, p)
  else (p.freeIds.headD 0, { p with freeIds := p.freeIds.tail })

/-- One object creation of `Page::add`/`Page::createObject`: allocate an
identity and push the created object (the prototype factory call is
assumed to succeed; its failure path creates nothing).  Returns the new
object's identity. -/
def addObject (p : PatcherPage) : Nat × PatcherPage :=
  let r := takeId p
  (r.1, { r.2 with objects := r.2.objects ++ [r.1] })

end PatcherPage

/-! ### The box-id container (`Page` in KiwiBase/Page.cpp)

This revision allocates identities from the `m_boxe_id` counter:
`createBox` first bumps the counter to `m_boxes.size() + 1` if it
collides with an existing box id, creates the box carrying the counter's
value, and post-increments the counter.  `Page::append` duplicates a
serialized fragment: it creates the boxes, records an old-id to new-id
entry for every created box whose dico carried an id different from the
assigned one, rewrites link endpoints whose id is in that map, and
creates each link. -/

/-- A box as the Page.cpp container sees it: its identity and its
inlet/outlet counts (fixed by the box's prototype). -/
structure PBox where
  id : Nat
  nins : Nat
  nouts : Nat
  deriving DecidableEq, Repr

/-- A (parsed) link description: source box id and outlet index,
destination box id and inlet index. -/
structure PLink where
  fromId : Nat
  outIdx : Nat
  toId : Nat
  inIdx : Nat
  deriving DecidableEq, Repr

/-- The state of the Page.cpp `Page`: the box collection, the
`m_boxe_id` counter and the connected link collection. -/
structure Page where
  boxes : List PBox
  boxeId : Nat
  links : List PLink
  deriving DecidableEq, Repr

/-- A box dico as `Page::append` reads it: the serialized id (when the
dico has one) and the inlet/outlet counts the named prototype would
give the created box. -/
structure BoxDico where
  oldId : Option Nat
  nins : Nat
  nouts : Nat
  deriving DecidableEq, Repr

/-- A page dico as `Page::append` reads it: the box dicos and — when the
dico has a links entry — the (parsed) link dicos. -/
structure PageDico where
  boxDicos : List BoxDico
  linkDicos : Option (List PLink)
  deriving DecidableEq, Repr

namespace Page

/-- The page a fresh `Page()` gives: no boxes, no links, `m_boxe_id`
starting at 1. -/
def empty : Page := ⟨[], 1, []⟩

/-- `Page::createBox` (Page.cpp): when the current `m_boxe_id` collides
with the id of an existing box it is first set to `m_boxes.size() + 1`;
the created box carries the resulting counter value as its identity
(modelled from the spec and from `replaceBox`, which steers the id a
created box receives by temporarily rewriting `m_boxe_id`: the box
constructor, absent from this tree, reads its id from the page's
counter), and the counter is incremented past it.  The factory call is
assumed to succeed. -/
def createBox (nins nouts : Nat) (p : Page) : PBox × Page :=
  let bid := if p.boxes.any (fun b => b.id = p.boxeId) then p.boxes.length + 1 else p.boxeId
  let box : PBox := ⟨bid, nins, nouts⟩
  (box, { p with boxes := p.boxes ++ [box], boxeId := bid + 1 })

/-- Resolve a box id against the page's collection. -/
def findBox (p : Page) (i : Nat) : Option PBox :=
  p.boxes.find? (fun b => b.id = i)

/-- `Page::createLink` (Page.cpp) composed with `Link::create(page,
dico)` (Link.cpp): the link is created iff the two ids differ, both
resolve to live boxes of this page, the outlet and inlet indices are in
range, and the identical link is not already connected (the endpoint
registration of `Link::connect` rejects a duplicate pair — the
no-parallel-duplicate-edges invariant); only then is it added to the
link collection. -/
def createLink (ld : PLink) (p : Page) : Option PLink × Page :=
  if ld.fromId ≠ ld.toId then
    match p.findBox ld.fromId, p.findBox ld.toId with
    | some bf, some bt =>
        if ld.outIdx < bf.nouts && ld.inIdx < bt.nins && !(p.links.contains ld) then
          (some ld, { p with links := p.links ++ [ld] })
        else (none, p)
    | _, _ => (none, p)
  else (none, p)

/-- Rewrite one link-endpoint id through the old-id to new-id map: ids
present in the map are replaced, ids not present are left unchanged. -/
def remapId (mapper : List (Nat × Nat)) (i : Nat) : Nat :=
  match mapper.lookup i with
  | some nid => nid
  | none => i

/-- `Page::append` (Page.cpp): first create every box dico's box,
recording `old id ↦ assigned id` whenever the page dico has a links
entry, the box dico carries an id, and the assigned id differs from it
(`dico->has(Tag_links) && box && subdico->has(Box::Tag_id)` and then
`box->getId() != _id`); then rewrite each link dico's endpoints through
that map and create the link. -/
def append (d : PageDico) (p : Page) : Page :=
  let r1 := d.boxDicos.foldl
    (fun (acc : Page × List (Nat × Nat)) bd =>
      let r := createBox bd.nins bd.nouts acc.1
      if d.linkDicos.isSome && bd.oldId.isSome then
        if r.1.id ≠ bd.oldId.getD 0 then (r.2, acc.2 ++ [(bd.oldId.getD 0, r.1.id)])
        else (r.2, acc.2)
      else (r.2, acc.2))
    (p, [])
  match d.linkDicos with
  | none => r1.1
  | some lds =>
      lds.foldl
        (fun q ld =>
          (createLink { ld with fromId := remapId r1.2 ld.fromId,
                                toId := remapId r1.2 ld.toId } q).2)
        r1.1

end Page

/-! ### Claim-side definitions

Definitions in this section transcribe sentences of the specification
(not the sources); the theorems below compare them with the embedded
source functions. -/

namespace Box

/-- The per-target reentrancy policy as the specification words it: when
incrementing the receiver's counter yields a value strictly below 256
the message is delivered normally; when it yields exactly 256 the
message is still delivered and a stack-overflow diagnostic is logged;
when it yields more the delivery is suppressed and only the diagnostic
is logged; in every case the counter is decremented before moving on. -/
def sendClaimStep (nested : System → Nat → Nat → ElemVector → System)
    (msg : ElemVector) (st : System) (c : Conn) : System :=
  let n := st.count c.box + 1
  let stI := st.updateBox c.box (fun b => { b with stackCount := n })
  let st2 :=
    if n < 256 then deliverBody nested stI c msg
    else if n = 256 then deliverBody nested (stI.logOverflow c.box) c msg
    else stI.logOverflow c.box
  st2.updateBox c.box (fun b => { b with stackCount := b.stackCount - 1 })

/-- `Box::send` as the specification words it: each target registered on
the outlet is processed with the per-target reentrancy policy. -/
def sendClaim : Nat → System → Nat → Nat → ElemVector → System
  | 0, st, _, _, _ => st
  | fuel + 1, st, sender, index, msg =>
      let b := st.boxes sender
      if index < b.outlets.length then
        (b.outlets.getD index []).foldl (fun s c => sendClaimStep (sendClaim fuel) msg s c) st
      else st

end Box

namespace AttributeFactory

/-- The attribute dispatch as the claim words it, with the boolean
result the claim ascribes to it: a message whose first element is a
symbol naming a registered, non-opaque attribute has that element
stripped, the remainder forwarded to the attribute's setter, a change
notification raised when the attribute is configured to notify, and
`true` returned; otherwise nothing is mutated and `false` is
returned. -/
def dispatchClaim (elements : ElemVector) (m : AttributeFactory) :
    AttributeFactory × Bool :=
  match elements with
  | e :: rest =>
      if e.isTag then
        match m.findAttr e.toTag with
        | some attr =>
            if !attr.isOpaque then
              let m1 := m.updateAttr e.toTag (attr.set rest)
              ((if attr.shouldNotifyChanges then m1.notify e.toTag else m1), true)
            else (m, false)
        | none => (m, false)
      else (m, false)
  | [] => (m, false)

end AttributeFactory

namespace Page

/-- Phase one of `Page::append` as the (amended) claim words it,
written as explicit recursion: create each box dico's box in order and
record an `old id ↦ assigned id` map entry exactly for the boxes whose
dico carries an id differing from the assigned one (and only when the
fragment has a links entry at all). -/
def buildBoxes (hasLinks : Bool) :
    List BoxDico → Page → List (Nat × Nat) → Page × List (Nat × Nat)
  | [], p, mapper => (p, mapper)
  | bd :: rest, p, mapper =>
      let r := createBox bd.nins bd.nouts p
      let mapper1 :=
        if hasLinks then
          match bd.oldId with
          | some oid => if r.1.id ≠ oid then mapper ++ [(oid, r.1.id)] else mapper
          | none => mapper
        else mapper
      buildBoxes hasLinks rest r.2 mapper1

/-- `Page::append` as the (amended) claim words it: build the boxes and
the old-to-new map, then rewrite every link endpoint whose id is in the
map (ids not in the map are kept) and create each link. -/
def appendSpec (d : PageDico) (p : Page) : Page :=
  let r := buildBoxes d.linkDicos.isSome d.boxDicos p []
  match d.linkDicos with
  | none => r.1
  | some lds =>
      lds.foldl
        (fun q ld =>
          (createLink { ld with fromId := remapId r.2 ld.fromId,
                                toId := remapId r.2 ld.toId } q).2)
        r.1

end Page

/-! ### Sample states used by witnesses and counterexamples -/

/-- A long attribute named `x`, default behavior, current value 0. -/
def attrLong0 : Attribute := ⟨"x", [], "", "", Behavior.none, false, [], .long 0⟩

/-- A color attribute whose current value is mid grey at half alpha. -/
def colorAttrHalf : Attribute :=
  ⟨"c", [], "", "", Behavior.none, false, [], .color (1/2) (1/2) (1/2) (1/2)⟩

/-- A long attribute flagged NotFreezable, current value 7. -/
def nfAttr : Attribute :=
  ⟨"nf", [], "", "", { Behavior.none with notFreezable := true }, false, [], .long 7⟩

/-- A rect attribute with a nonzero current value. -/
def rectAttr1 : Attribute :=
  ⟨"r", [], "", "", Behavior.none, false, [], .rect 1 2 3 4⟩

/-- A box with no outlets, no attributes, whose `receive` is the
unhandled default. -/
def defaultBoxData : BoxData := ⟨0, [], ⟨[], []⟩, fun _ _ => ([], false)⟩

/-- A manager registering only the `x` attribute. -/
def mgrX : AttributeFactory := ⟨[attrLong0], []⟩

/-- A box whose single outlet targets inlet 0 of box 1. -/
def boxSender : BoxData := ⟨0, [[⟨1, 0⟩]], ⟨[], []⟩, fun _ _ => ([], false)⟩

/-- A box that consumes every message in its own `receive` (returns
true) and registers the `x` attribute. -/
def boxConsumer : BoxData := ⟨0, [], mgrX, fun _ _ => ([], true)⟩

/-- The two-box system of the dispatch scenario: box 0 wired into box
1. -/
def sysDispatch : System :=
  ⟨fun j => if j = 0 then boxSender else if j = 1 then boxConsumer else defaultBoxData, []⟩

/-- The message naming the registered attribute `x` with argument 5. -/
def msgX : ElemVector := [.tag "x", .long 5]

/-- A box that leaves every message unhandled (returns false) and
registers the `x` attribute: messages reaching it fall back to its
attribute manager. -/
def boxPassive : BoxData := ⟨0, [], mgrX, fun _ _ => ([], false)⟩

/-- The two-box system of the fallback scenario: box 0 wired into the
passive box 1. -/
def sysFallback : System :=
  ⟨fun j => if j = 0 then boxSender else if j = 1 then boxPassive else defaultBoxData, []⟩

/-- A box that forwards every received message out of its outlet 0 and
reports it handled: wired onto itself it is the one-node cycle of the
reentrancy scenario. -/
def boxLoop : BoxData := ⟨0, [[⟨0, 0⟩]], ⟨[], []⟩, fun _ m => ([(0, m)], true)⟩

/-- The one-box system whose box 0 feeds back into itself. -/
def sysLoop : System := ⟨fun _ => boxLoop, []⟩

/-- The wiring of the link scenario: box 0 with one outlet, box 1 with
one inlet, nothing registered yet. -/
def wLink : Wiring :=
  fun j => if j = 0 then some ⟨[[]], []⟩ else if j = 1 then some ⟨[], [[]]⟩ else none

/-- The link from outlet 0 of box 0 to inlet 0 of box 1. -/
def linkSample : Link := ⟨0, 1, 0, 0⟩

/-- The page dico of the duplication counterexample: one box serialized
with id 5, and one link whose source endpoint id 1 is not among the
serialized boxes. -/
def dicoStale : PageDico := ⟨[⟨some 5, 1, 1⟩], some [⟨1, 0, 5, 0⟩]⟩

/-- The page dico of the duplication scenario: two linked boxes
serialized with ids 10 and 11. -/
def dicoPair : PageDico := ⟨[⟨some 10, 1, 1⟩, ⟨some 11, 1, 1⟩], some [⟨10, 0, 11, 0⟩]⟩

/-- A page holding one box (id 1, one outlet, one inlet), as obtained by
one `createBox` on the empty page. -/
def pageOne : Page := (Page.createBox 1 1 Page.empty).2

/-- A long attribute flagged NotSaveable, current value 3. -/
def nsAttr : Attribute :=
  ⟨"ns", [], "", "", { Behavior.none with notSaveable := true }, false, [], .long 3⟩

/-- Malformed input for a long attribute: empty, or a first element that
is neither long nor double. -/
def malformedForLong (elements : ElemVector) : Bool :=
  match elements.head? with
  | some e => !(e.isLong || e.isDouble)
  | none => true

/-- Malformed input for a double or bool attribute: empty, or a first
element that is not a number. -/
def malformedForNumber (elements : ElemVector) : Bool :=
  match elements.head? with
  | some e => !e.isNumber
  | none => true

/-- Malformed input for a tag attribute: empty, or a first element that
is not a tag. -/
def malformedForTag (elements : ElemVector) : Bool :=
  match elements.head? with
  | some e => !e.isTag
  | none => true

/-! ## Theorems -/

/-- The getter only reads the stored value. -/
theorem Attribute.get_congr (a b : Attribute) (h : a.value = b.value) :
    a.get = b.get := by
  unfold Attribute.get
  rw [h]

/-- The value a setter computes only depends on the prior value. -/
theorem Attribute.set_value_congr (a b : Attribute) (e : ElemVector)
    (h : a.value = b.value) : (a.set e).value = (b.set e).value := by
  unfold Attribute.set
  rw [h]
  cases hv : b.value <;> cases he : e.head? <;> simp only [hv, he] <;>
    ((try split) <;> simp [h, hv])

/-- The typed setter never touches anything but the stored value: name,
metadata, behavior bitset, frozen flag and frozen snapshot survive every
`set`. -/
theorem Attribute.set_meta (a : Attribute) (e : ElemVector) :
    (a.set e).name = a.name ∧ (a.set e).behavior = a.behavior ∧
    (a.set e).frozen = a.frozen ∧ (a.set e).frozenValue = a.frozenValue := by
  unfold Attribute.set
  cases hv : a.value <;> cases he : e.head? <;> simp only [hv, he] <;>
    ((try split) <;> simp)

/-- C10: `setInvisible` and `setOpaque` store the negation of their
Boolean argument (calling them with `true` clears the bit), while
`setDisabled`, `setSaveable` and `setNotifyChanges` store the bit equal
to their argument. -/
theorem kiwi_C10_behavior_setter_polarity (a : Attribute) (b : Bool) :
    ((a.setInvisible b).behavior.invisible = !b) ∧
    ((a.setOpaque b).behavior.opq = !b) ∧
    ((a.setDisabled b).behavior.disabled = b) ∧
    ((a.setSaveable b).behavior.notSaveable = b) ∧
    ((a.setNotifyChanges b).behavior.notNotifyChanges = b) := by
  cases b <;>
    simp [Attribute.setInvisible, Attribute.setOpaque, Attribute.setDisabled,
      Attribute.setSaveable, Attribute.setNotifyChanges]

/-- C7: `Attribute::freeze` consults no behavior bit — on an attribute
whose behavior has NotFreezable set, `freeze(true)` still marks it
frozen and still captures the snapshot, contradicting the documented
meaning of the flag. -/
theorem kiwi_C7_freeze_ignores_notFreezable :
    nfAttr.behavior.notFreezable = true ∧
    (nfAttr.freeze true).frozen = true ∧
    (nfAttr.freeze true).frozenValue = [.long 7] :=
  ⟨rfl, rfl, rfl⟩

/-- C5 counterexample: the color setter is not a no-op on malformed
input — called with the empty vector on an attribute holding mid grey at
half alpha, it overwrites the value with opaque black. -/
theorem kiwi_C5_counterexample :
    colorAttrHalf.value = .color (1/2) (1/2) (1/2) (1/2) ∧
    (colorAttrHalf.set []).value = .color 0 0 0 1 ∧
    colorAttrHalf.set [] ≠ colorAttrHalf := by
  refine ⟨rfl, rfl, fun h => ?_⟩
  have hv := congrArg Attribute.value h
  simp only [colorAttrHalf] at hv
  norm_num [Attribute.set, Attribute.colorComponent] at hv

/-- C5 amended: the long, double, bool and tag setters silently ignore
malformed input, leaving the attribute unchanged; the color and rect
setters instead always rewrite all four components, so the empty vector
resets a color to opaque black and a rect to all zeroes. -/
theorem kiwi_C5_amended_typed_setter_validation :
    (∀ (a : Attribute) (e : ElemVector) (v : Int),
       a.value = .long v → malformedForLong e = true → a.set e = a) ∧
    (∀ (a : Attribute) (e : ElemVector) (v : ℚ),
       a.value = .double v → malformedForNumber e = true → a.set e = a) ∧
    (∀ (a : Attribute) (e : ElemVector) (v : Bool),
       a.value = .bool v → malformedForNumber e = true → a.set e = a) ∧
    (∀ (a : Attribute) (e : ElemVector) (v : String),
       a.value = .tag v → malformedForTag e = true → a.set e = a) ∧
    (∀ (a : Attribute) (r g b al : ℚ),
       a.value = .color r g b al → (a.set []).value = .color 0 0 0 1) ∧
    (∀ (a : Attribute) (x y w h : ℚ),
       a.value = .rect x y w h → (a.set []).value = .rect 0 0 0 0) := by
  refine ⟨?_, ?_, ?_, ?_, ?_, ?_⟩
  · intro a e v hv hm
    unfold malformedForLong at hm
    unfold Attribute.set
    cases h : e.head? <;> rw [h] at hm <;> simp only [Bool.not_eq_true'] at hm <;>
      simp [hv, h, hm]
  · intro a e v hv hm
    unfold malformedForNumber at hm
    unfold Attribute.set
    cases h : e.head? <;> rw [h] at hm <;> simp only [Bool.not_eq_true'] at hm <;>
      simp [hv, h, hm]
  · intro a e v hv hm
    unfold malformedForNumber at hm
    unfold Attribute.set
    cases h : e.head? <;> rw [h] at hm <;> simp only [Bool.not_eq_true'] at hm <;>
      simp [hv, h, hm]
  · intro a e v hv hm
    unfold malformedForTag at hm
    unfold Attribute.set
    cases h : e.head? <;> rw [h] at hm <;> simp only [Bool.not_eq_true'] at hm <;>
      simp [hv, h, hm]
  · intro a r g b al hv
    simp [Attribute.set, hv, Attribute.colorComponent]
  · intro a x y w h hv
    simp [Attribute.set, hv, Attribute.rectComponent]

/-- Witness for the amended C5 statement at concrete attributes. -/
theorem kiwi_C5_amended_witness :
    attrLong0.set [Element.tag "t"] = attrLong0 ∧
    (colorAttrHalf.set []).value = .color 0 0 0 1 ∧
    (rectAttr1.set []).value = .rect 0 0 0 0 :=
  ⟨kiwi_C5_amended_typed_setter_validation.1 attrLong0 [Element.tag "t"] 0 rfl rfl,
   kiwi_C5_amended_typed_setter_validation.2.2.2.2.1 colorAttrHalf (1/2) (1/2) (1/2) (1/2) rfl,
   kiwi_C5_amended_typed_setter_validation.2.2.2.2.2 rectAttr1 1 2 3 4 rfl⟩

/-- C6: `write` emits nothing for a NotSaveable, unfrozen attribute;
otherwise it stores the frozen snapshot when frozen and the live value
when not; consequently freezing then mutating then writing persists the
pre-mutation value, while `get` still reflects the mutation. -/
theorem kiwi_C6_write_freeze_semantics :
    (∀ (a : Attribute) (d : Dico),
       a.behavior.notSaveable = true → a.frozen = false → a.write d = d) ∧
    (∀ (a : Attribute) (d : Dico),
       a.behavior.notSaveable = false →
         a.write d = d.set a.name (if a.frozen then a.frozenValue else a.get)) ∧
    (∀ (a : Attribute) (d : Dico),
       a.frozen = true → a.write d = d.set a.name a.frozenValue) ∧
    (∀ (a : Attribute) (v : ElemVector) (d : Dico),
       ((a.freeze true).set v).write d = d.set a.name a.get ∧
       ((a.freeze true).set v).get = (a.set v).get) := by
  refine ⟨?_, ?_, ?_, ?_⟩
  · intro a d hns hf
    simp [Attribute.write, hns, hf]
  · intro a d hns
    cases hf : a.frozen <;> simp [Attribute.write, hns, hf]
  · intro a d hf
    simp [Attribute.write, hf]
  · intro a v d
    obtain ⟨hn, hb, hf, hz⟩ := Attribute.set_meta (a.freeze true) v
    have hfz : (a.freeze true).frozen = true := rfl
    have hzz : (a.freeze true).frozenValue = a.get := rfl
    have hnn : (a.freeze true).name = a.name := rfl
    constructor
    · simp [Attribute.write, hf, hfz, hz, hzz, hn, hnn]
    · exact Attribute.get_congr _ _
        (Attribute.set_value_congr (a.freeze true) a v rfl)

/-- Witness for the C6 statement at concrete attributes. -/
theorem kiwi_C6_witness :
    nsAttr.write Dico.empty = Dico.empty ∧
    ((attrLong0.freeze true).set [Element.long 9]).write Dico.empty
      = Dico.empty.set "x" [Element.long 0] :=
  ⟨kiwi_C6_write_freeze_semantics.1 nsAttr Dico.empty rfl rfl,
   (kiwi_C6_write_freeze_semantics.2.2.2 attrLong0 [Element.long 9] Dico.empty).1⟩

/-- Writing a list element back to its own position is the identity. -/
theorem list_set_getD_self {α : Type} (L : List α) (i : Nat) (d : α)
    (h : i < L.length) : L.set i (L.getD i d) = L := by
  induction L generalizing i with
  | nil => simp at h
  | cons x xs ih =>
      cases i with
      | zero => simp
      | succ n =>
          simp only [List.getD_cons_succ, List.set_cons_succ, List.cons.injEq, true_and]
          exact ih n (by simpa using h)

/-- Reading back a just-written list element. -/
theorem list_getD_set_self {α : Type} (L : List α) (i : Nat) (v d : α)
    (h : i < L.length) : (L.set i v).getD i d = v := by
  induction L generalizing i with
  | nil => simp at h
  | cons x xs ih =>
      cases i with
      | zero => simp
      | succ n =>
          simp only [List.set_cons_succ, List.getD_cons_succ]
          exact ih n (by simpa using h)

/-- Characterization of the modelled `Box::connectOutlet`: it either
fails leaving the wiring unchanged, or the box is live, the index in
range, the pair new, and the pair is appended to the outlet's target
list. -/
theorem Wiring.connectOutlet_spec (w : Wiring) (src outlet dst inlet : Nat) :
    ((w.connectOutlet src outlet dst inlet).1 = false ∧
       (w.connectOutlet src outlet dst inlet).2 = w) ∨
    (∃ b, w src = some b ∧ outlet < b.outletConns.length ∧
       (dst, inlet) ∉ b.outletConns.getD outlet [] ∧
       w.connectOutlet src outlet dst inlet
         = (true, w.setOutletList src outlet
             (b.outletConns.getD outlet [] ++ [(dst, inlet)]))) := by
  unfold Wiring.connectOutlet
  cases hb : w src with
  | none => exact Or.inl ⟨rfl, rfl⟩
  | some b =>
      dsimp only
      by_cases hlen : outlet < b.outletConns.length
      · by_cases hmem : (dst, inlet) ∈ b.outletConns.getD outlet []
        · rw [if_pos hlen, if_pos hmem]
          exact Or.inl ⟨rfl, rfl⟩
        · rw [if_pos hlen, if_neg hmem]
          exact Or.inr ⟨b, rfl, hlen, hmem, rfl⟩
      · rw [if_neg hlen]
        exact Or.inl ⟨rfl, rfl⟩

/-- Characterization of the modelled `Box::connectInlet`: it either
fails leaving the wiring unchanged, or appends the source pair to the
inlet's source list. -/
theorem Wiring.connectInlet_spec (w : Wiring) (dst inlet src outlet : Nat) :
    ((w.connectInlet dst inlet src outlet).1 = false ∧
       (w.connectInlet dst inlet src outlet).2 = w) ∨
    (∃ b, w dst = some b ∧ inlet < b.inletConns.length ∧
       (src, outlet) ∉ b.inletConns.getD inlet [] ∧
       w.connectInlet dst inlet src outlet
         = (true, w.setInletList dst inlet
             (b.inletConns.getD inlet [] ++ [(src, outlet)]))) := by
  unfold Wiring.connectInlet
  cases hb : w dst with
  | none => exact Or.inl ⟨rfl, rfl⟩
  | some b =>
      dsimp only
      by_cases hlen : inlet < b.inletConns.length
      · by_cases hmem : (src, outlet) ∈ b.inletConns.getD inlet []
        · rw [if_pos hlen, if_pos hmem]
          exact Or.inl ⟨rfl, rfl⟩
        · rw [if_pos hlen, if_neg hmem]
          exact Or.inr ⟨b, rfl, hlen, hmem, rfl⟩
      · rw [if_neg hlen]
        exact Or.inl ⟨rfl, rfl⟩

/-- Removing the pair `connectOutlet` just appended restores the wiring
exactly. -/
theorem Wiring.disconnectOutlet_rollback (w : Wiring) (src outlet dst inlet : Nat)
    (b : LBox) (hb : w src = some b) (hlen : outlet < b.outletConns.length)
    (hmem : (dst, inlet) ∉ b.outletConns.getD outlet []) :
    (Wiring.disconnectOutlet
       (w.setOutletList src outlet (b.outletConns.getD outlet [] ++ [(dst, inlet)]))
       src outlet dst inlet).2 = w := by
  set l0 := b.outletConns.getD outlet [] with hl0
  have hw1 : (w.setOutletList src outlet (l0 ++ [(dst, inlet)])) src
      = some { b with outletConns := b.outletConns.set outlet (l0 ++ [(dst, inlet)]) } := by
    simp [Wiring.setOutletList, hb]
  unfold Wiring.disconnectOutlet
  rw [hw1]
  have hlen1 : outlet < (b.outletConns.set outlet (l0 ++ [(dst, inlet)])).length := by
    simpa using hlen
  have hget : (b.outletConns.set outlet (l0 ++ [(dst, inlet)])).getD outlet []
      = l0 ++ [(dst, inlet)] := list_getD_set_self _ _ _ _ hlen
  have hmem1 : (dst, inlet) ∈ l0 ++ [(dst, inlet)] := by simp
  have herase : (l0 ++ [(dst, inlet)]).erase (dst, inlet) = l0 := by
    rw [List.erase_append_right _ hmem, List.erase_cons_head]
    simp
  simp only [hlen1, hget, hmem1, if_pos, if_true]
  funext j
  by_cases hj : j = src
  · subst hj
    simp [Wiring.setOutletList, hb, herase, List.set_set,
      list_set_getD_self b.outletConns outlet [] hlen]
  · simp [Wiring.setOutletList, hj]

/-- Registering at an inlet never changes any outlet target list. -/
theorem Wiring.outletList_setInletList (w : Wiring) (id i : Nat)
    (l : List (Nat × Nat)) (sid oi : Nat) :
    (w.setInletList id i l).outletList sid oi = w.outletList sid oi := by
  unfold Wiring.outletList Wiring.setInletList
  by_cases h : sid = id
  · subst h
    simp only [if_pos rfl]
    cases w sid <;> simp
  · simp [h]

/-- Reading back the target list just written on an outlet. -/
theorem Wiring.outletList_setOutletList_self (w : Wiring) (id i : Nat)
    (l : List (Nat × Nat)) (b : LBox) (hb : w id = some b)
    (h : i < b.outletConns.length) :
    (w.setOutletList id i l).outletList id i = l := by
  unfold Wiring.outletList Wiring.setOutletList
  simp only [if_pos rfl, hb]
  exact list_getD_set_self _ _ _ _ h

/-- Reading back the source list just written on an inlet. -/
theorem Wiring.inletList_setInletList_self (w : Wiring) (id i : Nat)
    (l : List (Nat × Nat)) (b : LBox) (hb : w id = some b)
    (h : i < b.inletConns.length) :
    (w.setInletList id i l).inletList id i = l := by
  unfold Wiring.inletList Wiring.setInletList
  simp only [if_pos rfl, hb]
  exact list_getD_set_self _ _ _ _ h

/-- C3: `Link::connect` registers the link at the source outlet and then
at the destination inlet; when the second registration fails the first
is removed again, so the call either returns true with the link
registered at both endpoints, or returns false with the wiring exactly
as before. -/
theorem kiwi_C3_connect_two_phase_atomicity (l : Link) (w : Wiring) :
    if (l.connect w).1 then
      (l.boxTo, l.indexInlet) ∈ (l.connect w).2.outletList l.boxFrom l.indexOutlet ∧
      (l.boxFrom, l.indexOutlet) ∈ (l.connect w).2.inletList l.boxTo l.indexInlet
    else (l.connect w).2 = w := by
  unfold Link.connect
  cases hbf : w l.boxFrom with
  | none => simp
  | some bf =>
      cases hbt : w l.boxTo with
      | none => simp
      | some bt =>
          simp only []
          rcases Wiring.connectOutlet_spec w l.boxFrom l.indexOutlet l.boxTo l.indexInlet with
            ⟨ho1, ho2⟩ | ⟨b, hb, hlen, hmem, heq⟩
          · simp [ho1, ho2]
          · rw [heq]
            simp only [if_true]
            set w1 := w.setOutletList l.boxFrom l.indexOutlet
              (b.outletConns.getD l.indexOutlet [] ++ [(l.boxTo, l.indexInlet)]) with hw1
            rcases Wiring.connectInlet_spec w1 l.boxTo l.indexInlet l.boxFrom l.indexOutlet with
              ⟨hi1, hi2⟩ | ⟨c, hc, hclen, hcmem, hceq⟩
            · simp only [hi1, Bool.false_eq_true, if_false, hi2]
              exact Wiring.disconnectOutlet_rollback w _ _ _ _ b hb hlen hmem
            · rw [hceq]
              simp only [if_true]
              constructor
              · rw [Wiring.outletList_setInletList]
                rw [Wiring.outletList_setOutletList_self w _ _ _ b hb hlen]
                simp
              · rw [Wiring.inletList_setInletList_self w1 _ _ _ c hc hclen]
                simp

/-- C2 evaluation: after a successful `connect`, `disconnect` returns
false and removes nothing — both endpoint target lists still carry the
registration, so the pre-connect state is not restored. -/
theorem kiwi_C2_disconnect_is_inoperative :
    (linkSample.connect wLink).1 = true ∧
    (linkSample.connect wLink).2.outletList 0 0 = [(1, 0)] ∧
    (linkSample.connect wLink).2.inletList 1 0 = [(0, 0)] ∧
    linkSample.disconnect (linkSample.connect wLink).2
      = (false, (linkSample.connect wLink).2) ∧
    wLink.outletList 0 0 = [] ∧ wLink.inletList 1 0 = [] := by
  refine ⟨rfl, ?_, ?_, rfl, rfl, rfl⟩ <;> rfl

/-- C4 counterexample: after creating objects 1, 2, 3 and removing
first 3 then 1, both identities are pending (`m_free_ids = [3, 1]`) and
the next created object receives 3 — the first-freed identity, not the
smallest pending one (ascending reuse would give 1). -/
theorem kiwi_C4_counterexample :
    ((PatcherPage.remove 1 (PatcherPage.remove 3
        (PatcherPage.addObject (PatcherPage.addObject
          (PatcherPage.addObject PatcherPage.empty).2).2).2)).freeIds = [3, 1]) ∧
    (PatcherPage.addObject (PatcherPage.remove 1 (PatcherPage.remove 3
        (PatcherPage.addObject (PatcherPage.addObject
          (PatcherPage.addObject PatcherPage.empty).2).2).2))).1 = 3 ∧
    (3 : Nat) ≠ 1 := by
  decide

/-- C4 amended: removal appends the freed identity to the free-id list;
creation reuses the front of that list — first-freed-first-reused order,
not ascending numerical order — before a fresh identity (object count
plus one) is issued; hence removing the object with identity `k` when no
other freed identity is pending and then creating one object assigns
`k`. -/
theorem kiwi_C4_amended_free_id_fifo_reuse :
    (∀ (p : PatcherPage) (id : Nat), id ∈ p.objects →
       (PatcherPage.remove id p).freeIds = p.freeIds ++ [id]) ∧
    (∀ (p : PatcherPage) (f : Nat) (rest : List Nat), p.freeIds = f :: rest →
       PatcherPage.addObject p
         = (f, ⟨p.objects ++ [f], p.links, rest⟩)) ∧
    (∀ p : PatcherPage, p.freeIds = [] →
       PatcherPage.addObject p
         = (p.objects.length + 1, { p with objects := p.objects ++ [p.objects.length + 1] })) ∧
    (∀ (p : PatcherPage) (k : Nat), p.freeIds = [] → k ∈ p.objects →
       (PatcherPage.addObject (PatcherPage.remove k p)).1 = k) := by
  refine ⟨?_, ?_, ?_, ?_⟩
  · intro p id h
    simp [PatcherPage.remove, h]
  · intro p f rest h
    simp [PatcherPage.addObject, PatcherPage.takeId, h]
  · intro p h
    simp [PatcherPage.addObject, PatcherPage.takeId, h]
  · intro p k hf hk
    simp [PatcherPage.remove, hk, PatcherPage.addObject, PatcherPage.takeId, hf]

/-- Witness for the amended C4 statement on a one-object page. -/
theorem kiwi_C4_amended_witness :
    (PatcherPage.remove 1 ⟨[1], [], []⟩).freeIds = [] ++ [1] ∧
    (PatcherPage.addObject (PatcherPage.remove 1 ⟨[1], [], []⟩)).1 = 1 ∧
    PatcherPage.addObject ⟨[2], [], [5, 7]⟩ = (5, ⟨[2, 5], [], [7]⟩) :=
  ⟨kiwi_C4_amended_free_id_fifo_reuse.1 ⟨[1], [], []⟩ 1 (by decide),
   kiwi_C4_amended_free_id_fifo_reuse.2.2.2 ⟨[1], [], []⟩ 1 rfl (by decide),
   kiwi_C4_amended_free_id_fifo_reuse.2.1 ⟨[2], [], [5, 7]⟩ 5 [7] rfl⟩

/-- C9 counterexample: a container holding box 1 receives a duplicated
fragment consisting of one box serialized with id 5 and one link whose
source endpoint id 1 is not among the duplicated boxes; the link is not
dropped — it is recreated with its stale source id bound to the
pre-existing box 1. -/
theorem kiwi_C9_counterexample :
    pageOne.boxes = [⟨1, 1, 1⟩] ∧
    dicoStale.boxDicos.map BoxDico.oldId = [some 5] ∧
    some (1 : Nat) ∉ dicoStale.boxDicos.map BoxDico.oldId ∧
    pageOne.findBox 1 = some ⟨1, 1, 1⟩ ∧
    (Page.append dicoStale pageOne).links = [⟨1, 0, 2, 0⟩] := by
  decide

/-- The phase-one fold of `append` computes `buildBoxes` (the box
creation and old-to-new map of the amended claim). -/
theorem Page.buildBoxes_foldl (lds : Option (List PLink)) :
    ∀ (bds : List BoxDico) (acc : Page × List (Nat × Nat)),
      bds.foldl
        (fun (acc : Page × List (Nat × Nat)) bd =>
          let r := Page.createBox bd.nins bd.nouts acc.1
          if lds.isSome && bd.oldId.isSome then
            if r.1.id ≠ bd.oldId.getD 0 then (r.2, acc.2 ++ [(bd.oldId.getD 0, r.1.id)])
            else (r.2, acc.2)
          else (r.2, acc.2)) acc
      = Page.buildBoxes lds.isSome bds acc.1 acc.2 := by
  intro bds
  induction bds with
  | nil => intro acc; rfl
  | cons bd rest ih =>
      intro acc
      rw [List.foldl_cons, ih]
      simp only [Page.buildBoxes]
      cases hbo : bd.oldId <;> cases hld : lds <;> simp [hbo, hld] <;>
        (try (split <;> rfl))

/-- C9 amended: `append` creates the fragment's boxes through the box-id
counter, records an old-to-new entry exactly for the created boxes whose
serialized id differs from the assigned one, rewrites the link endpoints
found in that map (endpoints not in the map keep their serialized ids),
and then creates each link — a link is dropped when an endpoint id fails
to resolve to a live box of the container; duplicating two linked boxes
into a container that already holds a box yields two fresh boxes and
exactly one link between the two new identities. -/
theorem kiwi_C9_amended_append_remap :
    (∀ (d : PageDico) (p : Page), Page.append d p = Page.appendSpec d p) ∧
    (∀ (ld : PLink) (p : Page),
       Page.findBox p ld.fromId = none ∨ Page.findBox p ld.toId = none →
         Page.createLink ld p = (none, p)) ∧
    ((Page.append dicoPair pageOne).boxes = [⟨1, 1, 1⟩, ⟨2, 1, 1⟩, ⟨3, 1, 1⟩] ∧
     (Page.append dicoPair pageOne).links = [⟨2, 0, 3, 0⟩]) := by
  refine ⟨?_, ?_, by decide⟩
  · intro d p
    unfold Page.append Page.appendSpec
    rw [Page.buildBoxes_foldl d.linkDicos d.boxDicos (p, [])]
  · intro ld p h
    unfold Page.createLink
    by_cases hne : ld.fromId ≠ ld.toId
    · rw [if_pos hne]
      rcases h with h | h
      · rw [h]
      · rw [h]
        cases hf1 : Page.findBox p ld.fromId <;> rfl
    · rw [if_neg hne]

/-- Witness for the amended C9 statement: a link dico whose source id
resolves to no live box is dropped. -/
theorem kiwi_C9_amended_witness :
    Page.createLink ⟨9, 0, 1, 0⟩ pageOne = (none, pageOne) ∧
    Page.append dicoPair pageOne = Page.appendSpec dicoPair pageOne :=
  ⟨kiwi_C9_amended_append_remap.2.1 ⟨9, 0, 1, 0⟩ pageOne (Or.inl (by decide)),
   kiwi_C9_amended_append_remap.1 dicoPair pageOne⟩

/-- Reading the just-updated box. -/
theorem System.count_updateBox_self (st : System) (i : Nat) (f : BoxData → BoxData) :
    (st.updateBox i f).count i = (f (st.boxes i)).stackCount := by
  simp [System.updateBox, System.count]

/-- Two updates agree when they agree on the updated box. -/
theorem System.updateBox_congr (st : System) (i : Nat) (f g : BoxData → BoxData)
    (h : f (st.boxes i) = g (st.boxes i)) : st.updateBox i f = st.updateBox i g := by
  unfold System.updateBox
  congr 1
  funext j
  by_cases hj : j = i
  · subst hj; simp [h]
  · simp [hj]

/-- Counters after an update that only touches one box. -/
theorem System.count_updateBox (st : System) (i : Nat) (f : BoxData → BoxData) (b : Nat) :
    ((st.updateBox i f).boxes b).stackCount
      = if b = i then (f (st.boxes b)).stackCount else (st.boxes b).stackCount := by
  by_cases hb : b = i <;> simp [System.updateBox, hb]

/-- Managers after an update that only touches one box. -/
theorem System.manager_updateBox (st : System) (i : Nat) (f : BoxData → BoxData) (b : Nat) :
    ((st.updateBox i f).boxes b).manager
      = if b = i then (f (st.boxes b)).manager else (st.boxes b).manager := by
  by_cases hb : b = i <;> simp [System.updateBox, hb]

/-- The sends a receiver performs inside its `receive` preserve every
reentrancy counter, provided each nested send does. -/
theorem Box.runActs_count (nested : System → Nat → Nat → ElemVector → System)
    (hn : ∀ (s : System) (a i : Nat) (m : ElemVector) (b : Nat),
      ((nested s a i m).boxes b).stackCount = (s.boxes b).stackCount)
    (sender : Nat) :
    ∀ (acts : List (Nat × ElemVector)) (s : System) (b : Nat),
      ((acts.foldl (fun s a => nested s sender a.1 a.2) s).boxes b).stackCount
        = (s.boxes b).stackCount := by
  intro acts
  induction acts with
  | nil => intro s b; rfl
  | cons a rest ih =>
      intro s b
      rw [List.foldl_cons, ih, hn]

/-- A delivery body (the `receive` call with its fallback) preserves
every reentrancy counter, provided nested sends do. -/
theorem Box.deliverBody_count (nested : System → Nat → Nat → ElemVector → System)
    (hn : ∀ (s : System) (a i : Nat) (m : ElemVector) (b : Nat),
      ((nested s a i m).boxes b).stackCount = (s.boxes b).stackCount)
    (st : System) (c : Conn) (msg : ElemVector) (b : Nat) :
    ((Box.deliverBody nested st c msg).boxes b).stackCount = (st.boxes b).stackCount := by
  simp only [Box.deliverBody]
  split
  · rw [Box.runActs_count nested hn c.box]
  · rw [System.count_updateBox]
    split
    · rw [Box.runActs_count nested hn c.box]
    · rw [Box.runActs_count nested hn c.box]

/-- One guarded delivery restores the receiver's counter (increment,
branch, decrement) and leaves every other counter untouched, provided
nested sends preserve counters. -/
theorem Box.deliverOne_count (nested : System → Nat → Nat → ElemVector → System)
    (hn : ∀ (s : System) (a i : Nat) (m : ElemVector) (b : Nat),
      ((nested s a i m).boxes b).stackCount = (s.boxes b).stackCount)
    (st : System) (msg : ElemVector) (c : Conn) (b : Nat) :
    ((Box.deliverOne nested st msg c).boxes b).stackCount = (st.boxes b).stackCount := by
  simp only [Box.deliverOne]
  rw [System.count_updateBox]
  split
  · next hb =>
      subst hb
      split
      · rw [Box.deliverBody_count nested hn, System.count_updateBox]
        simp
      · split
        · rw [Box.deliverBody_count nested hn]
          simp only [System.logOverflow]
          rw [System.count_updateBox]
          simp
        · simp only [System.logOverflow]
          rw [System.count_updateBox]
          simp
  · next hb =>
      split
      · rw [Box.deliverBody_count nested hn, System.count_updateBox]
        simp [hb]
      · split
        · rw [Box.deliverBody_count nested hn]
          simp only [System.logOverflow]
          rw [System.count_updateBox]
          simp [hb]
        · simp only [System.logOverflow]
          rw [System.count_updateBox]
          simp [hb]

/-- `Box::send` preserves every reentrancy counter: each target's
increment is matched by its decrement on every branch, recursively. -/
theorem Box.send_count (fuel : Nat) :
    ∀ (st : System) (sender index : Nat) (msg : ElemVector) (b : Nat),
      ((Box.send fuel st sender index msg).boxes b).stackCount
        = (st.boxes b).stackCount := by
  induction fuel with
  | zero => intro st sender index msg b; rfl
  | succ fuel ih =>
      intro st sender index msg b
      simp only [Box.send]
      split
      · have hfold : ∀ (conns : List Conn) (s : System) (b : Nat),
            ((conns.foldl (fun s c => Box.deliverOne (Box.send fuel) s msg c) s).boxes b).stackCount
              = (s.boxes b).stackCount := by
          intro conns
          induction conns with
          | nil => intro s b; rfl
          | cons c rest ihc =>
              intro s b
              rw [List.foldl_cons, ihc,
                Box.deliverOne_count (Box.send fuel) (fun s a i m b => ih s a i m b)]
        rw [hfold]
      · rfl

/-- One iteration of the send loop equals the claim's per-target policy
step: the branch is decided by the value the increment yields, the
overflow diagnostic is logged from the cap on, and the counter is
decremented in every case. -/
theorem Box.deliverOne_eq_claimStep (nested : System → Nat → Nat → ElemVector → System)
    (st : System) (msg : ElemVector) (c : Conn) :
    Box.deliverOne nested st msg c = Box.sendClaimStep nested msg st c := by
  have hbox : st.updateBox c.box (fun b => { b with stackCount := b.stackCount + 1 })
      = st.updateBox c.box (fun b => { b with stackCount := st.count c.box + 1 }) :=
    System.updateBox_congr st c.box _ _ rfl
  simp only [Box.deliverOne, Box.sendClaimStep, hbox, System.count_updateBox_self]

/-- `Box::send` equals the claim-side send at every fuel. -/
theorem Box.send_eq_sendClaim (fuel : Nat) :
    ∀ (st : System) (sender index : Nat) (msg : ElemVector),
      Box.send fuel st sender index msg = Box.sendClaim fuel st sender index msg := by
  induction fuel with
  | zero => intro st sender index msg; rfl
  | succ fuel ih =>
      intro st sender index msg
      simp only [Box.send, Box.sendClaim]
      have hstep : (fun (s : System) (c : Conn) => Box.deliverOne (Box.send fuel) s msg c)
          = fun (s : System) (c : Conn) => Box.sendClaimStep (Box.sendClaim fuel) msg s c := by
        funext s c
        rw [Box.deliverOne_eq_claimStep]
        have hfn : (Box.send fuel) = (Box.sendClaim fuel) := by
          funext s a i m
          exact ih s a i m
        rw [hfn]
      rw [hstep]

/-- C1: `Box::send` processes each registered target of the outlet with
the claimed reentrancy policy (increment; deliver normally below 256,
deliver and log the stack-overflow diagnostic at exactly 256, suppress
and only log above it; decrement before the next target), and every
reentrancy counter — including through arbitrarily nested re-entrant
sends — is exactly restored, so counters that start at 0 are 0 again
after the outermost send returns. -/
theorem kiwi_C1_send_reentrancy_policy :
    (∀ (fuel : Nat) (st : System) (sender index : Nat) (msg : ElemVector),
       Box.send fuel st sender index msg = Box.sendClaim fuel st sender index msg) ∧
    (∀ (fuel : Nat) (st : System) (sender index : Nat) (msg : ElemVector) (b : Nat),
       ((Box.send fuel st sender index msg).boxes b).stackCount
         = (st.boxes b).stackCount) :=
  ⟨fun fuel => Box.send_eq_sendClaim fuel,
   fun fuel => Box.send_count fuel⟩

/-- The mutation and notification the source dispatch performs are
exactly those of the claim-side dispatch (the source checks the notify
bit on the attribute after `set`, the claim before; `set` never touches
behavior). -/
theorem AttributeFactory.receive_eq_dispatchClaim (elements : ElemVector)
    (m : AttributeFactory) :
    AttributeFactory.receive elements m = (AttributeFactory.dispatchClaim elements m).1 := by
  simp only [AttributeFactory.receive, AttributeFactory.dispatchClaim]
  cases elements with
  | nil => rfl
  | cons e rest =>
      dsimp only
      by_cases ht : e.isTag
      · rw [if_pos ht, if_pos ht]
        cases hf : m.findAttr e.toTag with
        | none => rfl
        | some attr =>
            by_cases ho : attr.isOpaque
            · simp [ho]
            · have hb : (attr.set rest).shouldNotifyChanges = attr.shouldNotifyChanges := by
                unfold Attribute.shouldNotifyChanges
                rw [(Attribute.set_meta attr rest).2.1]
              simp [ho, hb]
      · rw [if_neg ht, if_neg ht]

/-- A delivery whose receiver consumes the message in its own `receive`
(returning true, performing no sends) leaves every attribute manager
untouched: the attribute dispatch never runs. -/
theorem Box.deliverOne_manager_handled (nested : System → Nat → Nat → ElemVector → System)
    (st : System) (msg : ElemVector) (c : Conn)
    (h : (st.boxes c.box).reaction c.idx msg = ([], true)) (b : Nat) :
    ((Box.deliverOne nested st msg c).boxes b).manager = (st.boxes b).manager := by
  have hre : ((st.updateBox c.box
        (fun bd => { bd with stackCount := bd.stackCount + 1 })).boxes c.box).reaction
      c.idx msg = ([], true) := by
    simp only [System.updateBox, if_pos rfl]
    exact h
  simp only [Box.deliverOne, Box.deliverBody, System.logOverflow]
  rw [System.manager_updateBox]
  split
  · next hb =>
      subst hb
      split
      · rw [hre]
        simp only [List.foldl_nil, if_true]
        rw [System.manager_updateBox]
        simp
      · split
        · rw [hre]
          simp only [List.foldl_nil, if_true]
          rw [System.manager_updateBox]
          simp
        · rw [System.manager_updateBox]
          simp
  · next hb =>
      split
      · rw [hre]
        simp only [List.foldl_nil, if_true]
        rw [System.manager_updateBox]
        simp [hb]
      · split
        · rw [hre]
          simp only [List.foldl_nil, if_true]
          rw [System.manager_updateBox]
          simp [hb]
        · rw [System.manager_updateBox]
          simp [hb]

/-- An admitted delivery whose receiver leaves the message unhandled
(returning false, performing no sends) falls back to the receiver's
attribute manager: exactly the receiver's manager receives the
message. -/
theorem Box.deliverOne_manager_fallback (nested : System → Nat → Nat → ElemVector → System)
    (st : System) (msg : ElemVector) (c : Conn)
    (h : (st.boxes c.box).reaction c.idx msg = ([], false))
    (hcnt : (st.boxes c.box).stackCount + 1 ≤ 256) (b : Nat) :
    ((Box.deliverOne nested st msg c).boxes b).manager
      = if b = c.box then ((st.boxes c.box).manager).receive msg
        else (st.boxes b).manager := by
  have hre : ((st.updateBox c.box
        (fun bd => { bd with stackCount := bd.stackCount + 1 })).boxes c.box).reaction
      c.idx msg = ([], false) := by
    simp only [System.updateBox, if_pos rfl]
    exact h
  have hc1 : (st.updateBox c.box
        (fun bd => { bd with stackCount := bd.stackCount + 1 })).count c.box
      = (st.boxes c.box).stackCount + 1 := by
    rw [System.count_updateBox_self]
  simp only [Box.deliverOne, Box.deliverBody, System.logOverflow]
  rw [System.manager_updateBox]
  rcases Nat.lt_or_ge ((st.boxes c.box).stackCount + 1) 256 with hlt | hge
  · have hlt' : (st.updateBox c.box
        (fun bd => { bd with stackCount := bd.stackCount + 1 })).count c.box < 256 := by
      rw [hc1]; exact hlt
    rw [if_pos hlt', hre]
    simp only [List.foldl_nil, Bool.false_eq_true, if_false]
    rw [System.manager_updateBox]
    by_cases hb : b = c.box <;> simp [hb, System.manager_updateBox, System.updateBox]
  · have heq : (st.boxes c.box).stackCount + 1 = 256 := Nat.le_antisymm hcnt hge
    have hnlt : ¬ (st.updateBox c.box
        (fun bd => { bd with stackCount := bd.stackCount + 1 })).count c.box < 256 := by
      rw [hc1, heq]; exact Nat.lt_irrefl 256
    have heq' : (st.updateBox c.box
        (fun bd => { bd with stackCount := bd.stackCount + 1 })).count c.box = 256 := by
      rw [hc1]; exact heq
    rw [if_neg hnlt, if_pos heq', hre]
    simp only [List.foldl_nil, Bool.false_eq_true, if_false]
    rw [System.manager_updateBox]
    by_cases hb : b = c.box <;> simp [hb, System.manager_updateBox, System.updateBox]

/-- C8 counterexample: take the two-box system in which box 0 is wired
into box 1, box 1 registers the non-opaque, notifying attribute `x`
(value 0) and consumes every message in its own `receive`.  The
claim-side dispatch of `{x, 5}` matches and sets `x` to 5 and returns
true; but `Box::send` (the dispatch's only caller) delivers to the
node-specific `receive` first, and since that consumed the message the
attribute dispatch never runs: `x` is still 0 after the send.  The
source dispatch, moreover, returns no boolean at all. -/
theorem kiwi_C8_counterexample :
    (AttributeFactory.dispatchClaim msgX mgrX).2 = true ∧
    ((AttributeFactory.dispatchClaim msgX mgrX).1.findAttr "x").map Attribute.value
      = some (.long 5) ∧
    (((Box.send 2 sysDispatch 0 0 msgX).boxes 1).manager.findAttr "x").map Attribute.value
      = some (.long 0) ∧
    AttrValue.long 5 ≠ AttrValue.long 0 := by
  refine ⟨rfl, rfl, ?_, by decide⟩
  rfl

/-- C8 amended: the source dispatch (`AttributeFactory::receive`)
returns nothing; its mutation semantics are exactly the claimed ones —
a message whose first element is a symbol naming a registered non-opaque
attribute has that element stripped, the rest forwarded to the setter,
and a change notification raised when the attribute is configured to
notify, while anything else mutates nothing.  The fallback runs in the
opposite direction of the claim: `Box::send` tries the receiver's own
`receive` first — a consumed message never reaches the attribute
dispatch, and an unhandled one falls back to the receiver's manager. -/
theorem kiwi_C8_amended_dispatch_semantics :
    (∀ (elements : ElemVector) (m : AttributeFactory),
       AttributeFactory.receive elements m = (AttributeFactory.dispatchClaim elements m).1) ∧
    (∀ (nested : System → Nat → Nat → ElemVector → System) (st : System)
       (msg : ElemVector) (c : Conn),
       (st.boxes c.box).reaction c.idx msg = ([], true) →
       ∀ b, ((Box.deliverOne nested st msg c).boxes b).manager = (st.boxes b).manager) ∧
    (∀ (nested : System → Nat → Nat → ElemVector → System) (st : System)
       (msg : ElemVector) (c : Conn),
       (st.boxes c.box).reaction c.idx msg = ([], false) →
       (st.boxes c.box).stackCount + 1 ≤ 256 →
       ∀ b, ((Box.deliverOne nested st msg c).boxes b).manager
         = if b = c.box then ((st.boxes c.box).manager).receive msg
           else (st.boxes b).manager) :=
  ⟨AttributeFactory.receive_eq_dispatchClaim,
   fun nested st msg c h b => Box.deliverOne_manager_handled nested st msg c h b,
   fun nested st msg c h hcnt b => Box.deliverOne_manager_fallback nested st msg c h hcnt b⟩

/-- Witness for the amended C8 statement: in the consuming system the
manager of box 1 is untouched by a delivery; in the passive system it
receives the message as the fallback. -/
theorem kiwi_C8_amended_witness :
    AttributeFactory.receive msgX mgrX = (AttributeFactory.dispatchClaim msgX mgrX).1 ∧
    ((Box.deliverOne (Box.send 1) sysDispatch msgX ⟨1, 0⟩).boxes 1).manager
      = (sysDispatch.boxes 1).manager ∧
    ((Box.deliverOne (Box.send 1) sysFallback msgX ⟨1, 0⟩).boxes 1).manager
      = ((sysFallback.boxes 1).manager).receive msgX := by
  refine ⟨kiwi_C8_amended_dispatch_semantics.1 msgX mgrX, ?_, ?_⟩
  · exact kiwi_C8_amended_dispatch_semantics.2.1 (Box.send 1) sysDispatch msgX ⟨1, 0⟩ rfl 1
  · have h := kiwi_C8_amended_dispatch_semantics.2.2 (Box.send 1) sysFallback msgX ⟨1, 0⟩
      rfl (by norm_num [sysFallback, boxPassive]) 1
    rw [h]
    simp

end Kiwi
